import Mathlib

/-!
Verification of the RediGo RESP protocol parser, request handler and TCP
server against their natural-language specification.

Bytes are modelled as natural numbers (ASCII codes); byte buffers as
`List Nat`.  The Go functions of `resp/parser`, `resp/handler` and
`tcp/server.go` are shallowly embedded as executable Lean functions,
with Go runtime panics (out-of-range indexing / slicing) made explicit
as a `fault` outcome, and the finite input stream standing for a socket
that reaches EOF at the end of the list.
-/

namespace RediGo

/-- Convert a string literal to its list of byte codes (ASCII). -/
def strB (s : String) : List Nat := s.toList.map Char.toNat

/-- CR LF terminator bytes. -/
def crlf : List Nat := [13, 10]

/-- ASCII decimal digit test, as used by `strconv` digit scanning. -/
def isDigit (c : Nat) : Bool := 48 ≤ c && c ≤ 57

/-- Value of a list of ASCII digits read in base 10 (accumulator form). -/
def digitsVal (l : List Nat) : Nat := l.foldl (fun a c => a * 10 + (c - 48)) 0

/-- ASCII decimal rendering of a natural number, most significant digit
first; structural recursion on a fuel bound so that it kernel-reduces. -/
def natDigitsAux : Nat → Nat → List Nat
  | 0, _ => []
  | fuel + 1, n =>
      if n < 10 then [48 + n]
      else natDigitsAux fuel (n / 10) ++ [48 + n % 10]

/-- ASCII decimal rendering of a natural number. -/
def natDigits (n : Nat) : List Nat := natDigitsAux (n + 1) n

theorem natDigitsAux_congr : ∀ {f f' n : Nat}, n < f → n < f' →
    natDigitsAux f n = natDigitsAux f' n := by
  intro f
  induction f with
  | zero =>
      intro f' n h
      omega
  | succ fuel ih =>
      intro f' n hf hf'
      cases f' with
      | zero => omega
      | succ fuel' =>
          simp only [natDigitsAux]
          by_cases h10 : n < 10
          · simp [h10]
          · simp only [h10, if_false]
            have hdiv : n / 10 < fuel := by omega
            have hdiv' : n / 10 < fuel' := by omega
            rw [ih hdiv hdiv']

/-- The defining recurrence of `natDigits`. -/
theorem natDigits_eq (n : Nat) :
    natDigits n = if n < 10 then [48 + n] else natDigits (n / 10) ++ [48 + n % 10] := by
  show natDigitsAux (n + 1) n = _
  rw [natDigitsAux]
  by_cases h10 : n < 10
  · simp [h10]
  · simp only [h10, if_false]
    congr 1
    exact natDigitsAux_congr (by omega) (by omega)

/-- ASCII rendering of an integer: optional minus sign then decimal digits. -/
def intB (n : Int) : List Nat :=
  if n < 0 then 45 :: natDigits n.natAbs else natDigits n.toNat

theorem digitsVal_append_one (l : List Nat) (d : Nat) :
    digitsVal (l ++ [d]) = 10 * digitsVal l + (d - 48) := by
  simp only [digitsVal, List.foldl_append, List.foldl_cons, List.foldl_nil]
  omega

theorem natDigits_ne_nil (n : Nat) : natDigits n ≠ [] := by
  rw [natDigits_eq]
  split
  · simp
  · simp

theorem natDigits_all_digit (n : Nat) : ∀ d ∈ natDigits n, isDigit d = true := by
  induction n using Nat.strong_induction_on with
  | _ n ih =>
      rw [natDigits_eq]
      by_cases h10 : n < 10
      · simp only [h10, if_true, List.mem_singleton]
        intro d hd
        subst hd
        simp [isDigit]
        omega
      · simp only [h10, if_false, List.mem_append, List.mem_singleton]
        intro d hd
        rcases hd with hd | hd
        · exact ih (n / 10) (by omega) d hd
        · subst hd
          have hm : n % 10 < 10 := Nat.mod_lt _ (by omega)
          simp [isDigit]
          omega

theorem digitsVal_natDigits (n : Nat) : digitsVal (natDigits n) = n := by
  induction n using Nat.strong_induction_on with
  | _ n ih =>
      rw [natDigits_eq]
      by_cases h10 : n < 10
      · simp [h10, digitsVal]
      · simp only [h10, if_false, digitsVal_append_one, ih (n / 10) (by omega)]
        omega

theorem digit_ne_special {d : Nat} (h : isDigit d = true) :
    d ≠ 10 ∧ d ≠ 13 ∧ d ≠ 36 ∧ d ≠ 42 ∧ d ≠ 43 ∧ d ≠ 45 := by
  simp only [isDigit, Bool.and_eq_true, decide_eq_true_eq] at h
  omega

theorem natDigits_no_nl (n : Nat) : 10 ∉ natDigits n := by
  intro hmem
  have := natDigits_all_digit n 10 hmem
  exact (digit_ne_special this).1 rfl

/-- Model of `strconv.ParseUint(s, 10, 32)`: decimal digits only (no sign
permitted), non-empty, value within 32 bits; any other input is an error. -/
def parseUint32 (l : List Nat) : Option Nat :=
  if l.isEmpty then none
  else if l.all isDigit then
    if digitsVal l < 2 ^ 32 then some (digitsVal l) else none
  else none

/-- Model of `strconv.ParseInt(s, 10, 64)`: optional `+`/`-` sign followed by
decimal digits, value within the signed 64-bit range; otherwise an error. -/
def parseInt64 (l : List Nat) : Option Int :=
  match l with
  | [] => none
  | c :: rest =>
      if c = 45 then
        if rest.isEmpty then none
        else if rest.all isDigit then
          if digitsVal rest ≤ 2 ^ 63 then some (-(digitsVal rest : Int)) else none
        else none
      else if c = 43 then
        if rest.isEmpty then none
        else if rest.all isDigit then
          if digitsVal rest < 2 ^ 63 then some ((digitsVal rest : Int)) else none
        else none
      else
        if (c :: rest).all isDigit then
          if digitsVal (c :: rest) < 2 ^ 63 then some ((digitsVal (c :: rest) : Int))
          else none
        else none

theorem parseUint32_natDigits {n : Nat} (h : n < 2 ^ 32) :
    parseUint32 (natDigits n) = some n := by
  have hne := natDigits_ne_nil n
  have hall : (natDigits n).all isDigit = true :=
    List.all_eq_true.mpr (natDigits_all_digit n)
  have hv : n < 4294967296 := by omega
  simp [parseUint32, List.isEmpty_iff, hne, hall, hv, digitsVal_natDigits]

theorem parseInt64_natDigits {n : Nat} (h : n < 2 ^ 63) :
    parseInt64 (natDigits n) = some (n : Int) := by
  have hall := natDigits_all_digit n
  cases hd : natDigits n with
  | nil => exact absurd hd (natDigits_ne_nil n)
  | cons c rest =>
      have hc : isDigit c = true := by
        apply hall; rw [hd]; exact List.mem_cons_self _ _
      have hc45 : c ≠ 45 := (digit_ne_special hc).2.2.2.2.2
      have hc43 : c ≠ 43 := (digit_ne_special hc).2.2.2.2.1
      have hall' : (c :: rest).all isDigit = true := by
        rw [← hd]; exact List.all_eq_true.mpr (fun d hm => hall d hm)
      have hv : digitsVal (c :: rest) = n := by rw [← hd, digitsVal_natDigits]
      have hv' : n < 9223372036854775808 := by omega
      simp [parseInt64, hc45, hc43, hall', hv', hv]

theorem parseInt64_intB {n : Int} (hlo : -(2 ^ 63) ≤ n) (hhi : n < 2 ^ 63) :
    parseInt64 (intB n) = some n := by
  by_cases hneg : n < 0
  · have hne : (natDigits n.natAbs).isEmpty = false := by
      simp [List.isEmpty_iff, natDigits_ne_nil]
    have hall : (natDigits n.natAbs).all isDigit = true :=
      List.all_eq_true.mpr (natDigits_all_digit n.natAbs)
    have hbound : digitsVal (natDigits n.natAbs) ≤ 2 ^ 63 := by
      rw [digitsVal_natDigits]
      have : (2 : Nat) ^ 63 = 9223372036854775808 := by norm_num
      omega
    simp only [intB, hneg, if_true]
    simp only [parseInt64, if_pos rfl, hne, Bool.false_eq_true, if_false, hall, if_true]
    rw [if_pos hbound, digitsVal_natDigits]
    simp only [Option.some.injEq, Int.natCast_natAbs, abs_of_neg hneg, neg_neg]
  · have hlt : n.toNat < 2 ^ 63 := by omega
    simp only [intB, hneg, if_false]
    rw [parseInt64_natDigits hlt]
    congr 1
    omega

/-! ## Parser data model (embedding of `resp/parser`) -/

/-- Embedding of the Go `readState` struct: the parser's per-connection
mutable state.  Field defaults are the Go zero value. -/
structure readState where
  readingMultiLine : Bool
  expectedArgsCount : Nat
  msgType : Nat
  args : List (List Nat)
  bulkLen : Int
  deriving Repr, DecidableEq

/-- The Go zero value `readState{}` that the parser resets to. -/
def zeroRS : readState := ⟨false, 0, 0, [], 0⟩

/-- Embedding of `(*readState).finished`:
`s.expectedArgsCount > 0 && len(s.args) == s.expectedArgsCount`. -/
def readState.finished (s : readState) : Bool :=
  decide (0 < s.expectedArgsCount) && s.args.length == s.expectedArgsCount

/-- The replies produced by the parser (the variants of the `resp/reply`
package that `parse0` constructs). -/
inductive Reply where
  | status (s : List Nat)
  | errRep (s : List Nat)
  | intRep (n : Int)
  | bulk (b : List Nat)
  | nullBulk
  | multiBulk (args : List (List Nat))
  | emptyMultiBulk
  deriving Repr, DecidableEq

/-- The distinguishable I/O (transport) error values a read can produce,
standing for the Go `error` values the reader returns. -/
inductive IoKind where
  | eof               -- io.EOF
  | unexpectedEof     -- io.ErrUnexpectedEOF
  | closedNetwork     -- a *net.OpError whose text contains "use of closed network connection"
  | resetByPeer       -- a read error such as "connection reset by peer"
  deriving Repr, DecidableEq

/-- A Go `error` value as carried in a `Payload`: either an I/O error
passed through from the reader, or a `"protocol error: <line>"` error. -/
inductive GoErr where
  | io (k : IoKind)
  | proto (line : List Nat)
  deriving Repr, DecidableEq

/-- Embedding of the Go `Payload` struct: `Data resp.Reply; Err error`,
each field possibly nil. -/
structure Payload where
  data : Option Reply
  err : Option GoErr
  deriving Repr, DecidableEq

/-- How a run of the parser goroutine ended in the finite-input model. -/
inductive Term where
  | closed   -- the channel was closed after a final I/O-error payload
  | fault    -- a runtime panic (recovered at the task boundary, no close)
  | fuelOut  -- artificial: the step budget ran out
  deriving Repr, DecidableEq

/-- The observable outcome of a parser run: the payloads sent on the
channel, in order, and how the goroutine ended. -/
structure POut where
  units : List Payload
  term : Term
  deriving Repr, DecidableEq

/-- Prepend one sent payload to a run outcome. -/
def pcons (p : Payload) (o : POut) : POut := ⟨p :: o.units, o.term⟩

@[simp] theorem pcons_units (p : Payload) (o : POut) : (pcons p o).units = p :: o.units := rfl

@[simp] theorem pcons_term (p : Payload) (o : POut) : (pcons p o).term = o.term := rfl

/-- Result of `readLine`: the Go function returns `(msg, ioErr, err)`; we
additionally make the buffered reader's advance explicit (`rest`) and give
a runtime panic its own outcome. -/
inductive RLRes where
  | ioErr (k : IoKind)
  | protoErr (msg : List Nat) (rest : List Nat)
  | ok (msg : List Nat) (rest : List Nat) (s : readState)
  | fault
  deriving Repr, DecidableEq

/-- Embedding of `bufio.Reader.ReadBytes('\n')` on a finite stream: bytes up
to and including the first `\n`, plus the remainder; `none` when no `\n`
arrives before EOF (the data read so far is discarded with the error, as
`readLine` does). -/
def splitAtNL : List Nat → Option (List Nat × List Nat)
  | [] => none
  | b :: rest =>
      if b = 10 then some ([10], rest)
      else
        match splitAtNL rest with
        | none => none
        | some (m, r) => some (b :: m, r)

/-- The check `if len(msg) == 0 || msg[len(msg)-2] != '\r'` of `readLine`'s
normal-line branch.  Indexing `msg[len(msg)-2]` when `len(msg) == 1` is the
Go panic `index out of range [-1]`, made explicit as `fault`. -/
def lineCheck (msg rest : List Nat) (s : readState) : RLRes :=
  if msg.length = 0 then .protoErr msg rest
  else if msg.length = 1 then .fault
  else if msg.getD (msg.length - 2) 0 ≠ 13 then .protoErr msg rest
  else .ok msg rest s

/-- The check `if len(msg) == 0 || msg[len(msg)-2] != '\r' ||
msg[len(msg)-1] != '\n'` of `readLine`'s bulk branch, followed by
`state.bulkLen = 0` on success. -/
def bulkCheck (msg rest : List Nat) (s : readState) : RLRes :=
  if msg.length = 0 then .protoErr msg rest
  else if msg.length = 1 then .fault
  else if msg.getD (msg.length - 2) 0 ≠ 13 then .protoErr msg rest
  else if msg.getD (msg.length - 1) 0 ≠ 10 then .protoErr msg rest
  else .ok msg rest { s with bulkLen := 0 }

/-- Embedding of the Go `readLine`.  `bulkLen == 0` reads a normal line via
`ReadBytes('\n')`; otherwise it reads `bulkLen+2` bytes via `io.ReadFull`
(allocating a buffer of `bulkLen+2` bytes, a panic when that is negative). -/
def readLine (input : List Nat) (s : readState) : RLRes :=
  if s.bulkLen = 0 then
    match splitAtNL input with
    | none => .ioErr .eof
    | some (msg, rest) => lineCheck msg rest s
  else
    let n : Int := s.bulkLen + 2
    if n < 0 then .fault
    else if (input.length : Int) < n then
      .ioErr (if input.length = 0 then .eof else .unexpectedEof)
    else bulkCheck (input.take n.toNat) (input.drop n.toNat) s

/-- The Go slice `msg[1 : len(msg)-2]`, used by both header parsers. -/
def lineContent (msg : List Nat) : List Nat :=
  (msg.drop 1).take (msg.length - 3)

/-- Embedding of `parseMultiBulkHeader`; `none` is the protocol error. -/
def parseMultiBulkHeader (msg : List Nat) (s : readState) : Option readState :=
  match parseUint32 (lineContent msg) with
  | none => none
  | some n =>
      if n = 0 then some { s with expectedArgsCount := 0 }
      else some { s with
        msgType := msg.headD 0
        readingMultiLine := true
        expectedArgsCount := n
        args := [] }

/-- Embedding of `parseBulkHeader`; `none` is the protocol error. -/
def parseBulkHeader (msg : List Nat) (s : readState) : Option readState :=
  match parseInt64 (lineContent msg) with
  | none => none
  | some n =>
      if n = -1 then some { s with bulkLen := -1 }
      else if 0 < n then some { s with
        bulkLen := n
        msgType := msg.headD 0
        readingMultiLine := true
        expectedArgsCount := 1
        args := [] }
      else none

/-- Embedding of `strings.TrimSuffix(string(msg), "\r\n")`. -/
def trimCRLF (msg : List Nat) : List Nat :=
  if 2 ≤ msg.length ∧ msg.getD (msg.length - 2) 0 = 13 ∧ msg.getD (msg.length - 1) 0 = 10
  then msg.take (msg.length - 2) else msg

/-- Embedding of `parseSingleLineReply`: returns the `(result, err)` pair
that `parse0` forwards verbatim into a `Payload`. -/
def parseSingleLineReply (msg : List Nat) : Option Reply × Option GoErr :=
  let str := trimCRLF msg
  match msg.headD 0 with
  | 43 => (some (.status (str.drop 1)), none)
  | 45 => (some (.errRep (str.drop 1)), none)
  | 58 =>
      match parseInt64 (str.drop 1) with
      | none => (none, some (.proto msg))
      | some v => (some (.intRep v), none)
  | _ => (none, none)

/-- Result of `readBody`: success with the new state, the protocol error,
or a Go panic (`line[0]` on an empty slice / slicing a short `msg`). -/
inductive BodyRes where
  | ok (s : readState)
  | protoErr
  | fault
  deriving Repr, DecidableEq

/-- Embedding of the Go `readBody`: strips the trailing CRLF, then either
interprets a leading `$` as the next bulk length (appending an empty buffer
when it is non-positive) or appends the whole line as the next argument. -/
def readBody (msg : List Nat) (s : readState) : BodyRes :=
  if msg.length < 2 then .fault
  else
    let line := msg.take (msg.length - 2)
    match line.head? with
    | none => .fault
    | some c =>
        if c = 36 then
          match parseInt64 (line.drop 1) with
          | none => .protoErr
          | some n =>
              if n ≤ 0 then .ok { s with args := s.args ++ [[]], bulkLen := 0 }
              else .ok { s with bulkLen := n }
        else .ok { s with args := s.args ++ [line] }

/-- The reply built in `parse0` when `state.finished()`: a Multi-Bulk from
all collected args for `'*'`, a Bulk from `args[0]` for `'$'`, and the nil
interface value otherwise. -/
def finishedReply (s : readState) : Option Reply :=
  if s.msgType = 42 then some (.multiBulk s.args)
  else if s.msgType = 36 then some (.bulk (s.args.headD []))
  else none

/-- Embedding of the `parse0` loop on a finite input stream, with an
explicit step budget (each loop iteration consumes one unit of fuel and at
least one input byte, so any budget exceeding the input length is exact). -/
def parse0 : Nat → List Nat → readState → POut
  | 0, _, _ => ⟨[], .fuelOut⟩
  | fuel + 1, input, state =>
      match readLine input state with
      | .ioErr k => ⟨[⟨none, some (.io k)⟩], .closed⟩
      | .protoErr msg rest => pcons ⟨none, some (.proto msg)⟩ (parse0 fuel rest zeroRS)
      | .fault => ⟨[], .fault⟩
      | .ok msg rest s1 =>
          if s1.readingMultiLine = false then
            if msg.headD 0 = 42 then
              match parseMultiBulkHeader msg s1 with
              | none => pcons ⟨none, some (.proto msg)⟩ (parse0 fuel rest zeroRS)
              | some s2 =>
                  if s2.expectedArgsCount = 0 then
                    pcons ⟨some .emptyMultiBulk, none⟩ (parse0 fuel rest zeroRS)
                  else parse0 fuel rest s2
            else if msg.headD 0 = 36 then
              match parseBulkHeader msg s1 with
              | none => pcons ⟨none, some (.proto msg)⟩ (parse0 fuel rest zeroRS)
              | some s2 =>
                  if s2.bulkLen = -1 then
                    pcons ⟨some .nullBulk, none⟩ (parse0 fuel rest zeroRS)
                  else parse0 fuel rest s2
            else
              pcons ⟨(parseSingleLineReply msg).1, (parseSingleLineReply msg).2⟩
                (parse0 fuel rest zeroRS)
          else
            match readBody msg s1 with
            | .fault => ⟨[], .fault⟩
            | .protoErr => pcons ⟨none, some (.proto msg)⟩ (parse0 fuel rest zeroRS)
            | .ok s2 =>
                if s2.finished then
                  pcons ⟨finishedReply s2, none⟩ (parse0 fuel rest zeroRS)
                else parse0 fuel rest s2

/-! ## Step lemmas for the parser -/

theorem splitAtNL_append {a : List Nat} (r : List Nat) (ha : 10 ∉ a) :
    splitAtNL (a ++ 10 :: r) = some (a ++ [10], r) := by
  induction a with
  | nil => simp [splitAtNL]
  | cons b bs ih =>
      have hb : b ≠ 10 := fun h => ha (h ▸ List.mem_cons_self b bs)
      have hbs : 10 ∉ bs := fun h => ha (List.mem_cons_of_mem b h)
      simp only [List.cons_append, splitAtNL, hb, if_false, List.append_eq]
      rw [ih hbs]

theorem getD_snoc2_left {l : List Nat} {x y : Nat} :
    (l ++ [x, y]).getD l.length 0 = x := by
  rw [List.getD_append_right _ _ _ _ (Nat.le_refl _)]
  simp

theorem getD_snoc2_right {l : List Nat} {x y : Nat} :
    (l ++ [x, y]).getD (l.length + 1) 0 = y := by
  rw [List.getD_append_right _ _ _ _ (Nat.le_succ_of_le (Nat.le_refl _))]
  simp

theorem lineCheck_ok {msg rest : List Nat} {s : readState}
    (h2 : 2 ≤ msg.length) (h13 : msg.getD (msg.length - 2) 0 = 13) :
    lineCheck msg rest s = .ok msg rest s := by
  unfold lineCheck
  rw [if_neg (by omega), if_neg (by omega), if_neg (fun hne => hne h13)]

theorem bulkCheck_ok {msg rest : List Nat} {s : readState}
    (h2 : 2 ≤ msg.length) (h13 : msg.getD (msg.length - 2) 0 = 13)
    (h10 : msg.getD (msg.length - 1) 0 = 10) :
    bulkCheck msg rest s = .ok msg rest { s with bulkLen := 0 } := by
  unfold bulkCheck
  rw [if_neg (by omega), if_neg (by omega), if_neg (fun hne => hne h13),
    if_neg (fun hne => hne h10)]

/-- `readLine` in normal-line mode on a stream whose next line is
`l ++ "\r\n"` returns that full line and leaves the state unchanged. -/
theorem readLine_normal (l rest : List Nat) (s : readState)
    (hb : s.bulkLen = 0) (hnl : 10 ∉ l) :
    readLine (l ++ crlf ++ rest) s = .ok (l ++ crlf) rest s := by
  have hsplit : splitAtNL ((l ++ [13]) ++ 10 :: rest) = some ((l ++ [13]) ++ [10], rest) :=
    splitAtNL_append rest (by
      intro h
      rcases List.mem_append.mp h with h | h
      · exact hnl h
      · simp at h)
  have harr : l ++ crlf ++ rest = (l ++ [13]) ++ 10 :: rest := by
    simp [crlf]
  have hmsg : (l ++ [13]) ++ [10] = l ++ crlf := by simp [crlf]
  rw [readLine, if_pos hb, harr]
  simp only [hsplit, hmsg]
  have hlen : (l ++ crlf).length = l.length + 2 := by simp [crlf]
  apply lineCheck_ok (by omega)
  have hidx : (l ++ crlf).length - 2 = l.length := by omega
  rw [hidx]
  show (l ++ [13, 10]).getD l.length 0 = 13
  exact getD_snoc2_left

/-- `readLine` in bulk mode reads exactly `bulkLen + 2` bytes, checks their
trailing CRLF, and resets `bulkLen` to 0. -/
theorem readLine_bulk (body rest : List Nat) (s : readState)
    (hb : s.bulkLen = (body.length : Int)) (hpos : 0 < body.length) :
    readLine (body ++ crlf ++ rest) s = .ok (body ++ crlf) rest { s with bulkLen := 0 } := by
  have hbne : ¬s.bulkLen = 0 := by rw [hb]; omega
  have hnneg : ¬s.bulkLen + 2 < 0 := by rw [hb]; omega
  have hlen : (body ++ crlf ++ rest).length = body.length + 2 + rest.length := by
    simp [crlf]
    omega
  have hnoio : ¬((body ++ crlf ++ rest).length : Int) < s.bulkLen + 2 := by
    rw [hb, hlen]; push_cast; omega
  rw [readLine, if_neg hbne]
  simp only [if_neg hnneg, if_neg hnoio]
  have htn : (s.bulkLen + 2).toNat = body.length + 2 := by rw [hb]; omega
  have happ : body ++ crlf ++ rest = (body ++ crlf) ++ rest := by simp
  have hlen2 : (body ++ crlf).length = body.length + 2 := by simp [crlf]
  have htake : (body ++ crlf ++ rest).take (s.bulkLen + 2).toNat = body ++ crlf := by
    rw [htn, happ, ← hlen2, List.take_left]
  have hdrop : (body ++ crlf ++ rest).drop (s.bulkLen + 2).toNat = rest := by
    rw [htn, happ, ← hlen2, List.drop_left]
  rw [htake, hdrop]
  apply bulkCheck_ok (by omega)
  · have hidx : (body ++ crlf).length - 2 = body.length := by omega
    rw [hidx]
    show (body ++ [13, 10]).getD body.length 0 = 13
    exact getD_snoc2_left
  · have hidx : (body ++ crlf).length - 1 = body.length + 1 := by omega
    rw [hidx]
    show (body ++ [13, 10]).getD (body.length + 1) 0 = 10
    exact getD_snoc2_right

/-- On a line `l ++ "\r\n"`, the Go slice `msg[0 : len-2]` is `l`. -/
theorem take_crlf (l : List Nat) :
    (l ++ crlf).take ((l ++ crlf).length - 2) = l := by
  have h : (l ++ crlf).length - 2 = l.length := by simp [crlf]
  rw [h, List.take_left]

/-- On a header line `c :: content ++ "\r\n"`, the Go slice
`msg[1 : len-2]` is `content`. -/
theorem lineContent_eq (c : Nat) (content : List Nat) :
    lineContent (c :: content ++ crlf) = content := by
  unfold lineContent
  have hlen : (c :: content ++ crlf).length - 3 = content.length := by simp [crlf]
  rw [hlen]
  show List.take content.length (content ++ crlf) = content
  exact List.take_left content crlf

/-- `readBody` on a well-formed line that does not start with `'$'`
appends the line (minus its CRLF) as the next argument. -/
theorem readBody_raw (line : List Nat) (s : readState) (hne : line ≠ [])
    (h36 : line.head? ≠ some 36) :
    readBody (line ++ crlf) s = .ok { s with args := s.args ++ [line] } := by
  cases line with
  | nil => exact absurd rfl hne
  | cons c cs =>
      have hc : ¬c = 36 := by
        intro h; exact h36 (by simp [h])
      have hlt : ¬((c :: cs) ++ crlf).length < 2 := by simp [crlf]
      unfold readBody
      rw [if_neg hlt,
        show ((c :: cs) ++ crlf).take (((c :: cs) ++ crlf).length - 2) = c :: cs from
          take_crlf (c :: cs)]
      simp [hc]

/-- `readBody` on a `$<len>` element header line: a non-positive length
appends an empty buffer, a positive one sets the pending body length. -/
theorem readBody_header (content : List Nat) (s : readState) {n : Int}
    (hp : parseInt64 content = some n) :
    readBody ((36 :: content) ++ crlf) s =
      if n ≤ 0 then .ok { s with args := s.args ++ [[]], bulkLen := 0 }
      else .ok { s with bulkLen := n } := by
  have hlt : ¬((36 :: content) ++ crlf).length < 2 := by simp [crlf]
  unfold readBody
  rw [if_neg hlt,
    show ((36 :: content) ++ crlf).take (((36 :: content) ++ crlf).length - 2) = 36 :: content
      from take_crlf (36 :: content)]
  simp [hp]

/-! ## Multi-Bulk element encodings -/

/-- One element of a Multi-Bulk message as it can appear on the wire while
the parser is collecting: a Bulk element (`$<len>` header plus body), a
null element (`$<len>` with non-positive length, no body), or a bare
CRLF-terminated line with no `$` header. -/
inductive Elem where
  | bulkE (body : List Nat)
  | nullE (n : Int)
  | rawE (line : List Nat)
  deriving Repr, DecidableEq

/-- Wire encoding of an element. -/
def Elem.enc : Elem → List Nat
  | .bulkE body => (36 :: natDigits body.length ++ crlf) ++ (body ++ crlf)
  | .nullE n => (36 :: intB n) ++ crlf
  | .rawE line => line ++ crlf

/-- The argument buffer the parser records for an element. -/
def Elem.val : Elem → List Nat
  | .bulkE body => body
  | .nullE _ => []
  | .rawE line => line

/-- Loop iterations `parse0` spends on an element. -/
def Elem.iters : Elem → Nat
  | .bulkE _ => 2
  | .nullE _ => 1
  | .rawE _ => 1

/-- Well-formedness of an element for the collection lemma. -/
def Elem.wf : Elem → Prop
  | .bulkE body => body ≠ [] ∧ body.head? ≠ some 36 ∧ body.length < 2 ^ 63
  | .nullE n => n ≤ 0 ∧ -(2 ^ 63) ≤ n
  | .rawE line => line ≠ [] ∧ line.head? ≠ some 36 ∧ 10 ∉ line

instance : DecidablePred Elem.wf := fun e =>
  match e with
  | .bulkE body =>
      inferInstanceAs (Decidable (body ≠ [] ∧ body.head? ≠ some 36 ∧ body.length < 2 ^ 63))
  | .nullE n => inferInstanceAs (Decidable (n ≤ 0 ∧ -(2 ^ 63) ≤ n))
  | .rawE line =>
      inferInstanceAs (Decidable (line ≠ [] ∧ line.head? ≠ some 36 ∧ 10 ∉ line))

/-- Concatenated wire encoding of a list of elements. -/
def encElems (l : List Elem) : List Nat := (l.map Elem.enc).flatten

/-- Total loop iterations for a list of elements. -/
def itersElems (l : List Elem) : Nat := (l.map Elem.iters).sum

/-- The state of the run after one element has been recorded while
collecting a `'*'` message with `N` expected arguments: emit and reset if
this was the last expected argument, otherwise keep collecting. -/
def afterElem (N : Nat) (acc : List (List Nat)) (v : List Nat) (fuel : Nat)
    (tail : List Nat) : POut :=
  if acc.length + 1 = N then
    pcons ⟨some (.multiBulk (acc ++ [v])), none⟩ (parse0 fuel tail zeroRS)
  else parse0 fuel tail ⟨true, N, 42, acc ++ [v], 0⟩

theorem intB_no_nl (n : Int) : 10 ∉ intB n := by
  unfold intB
  split
  · intro h
    rcases List.mem_cons.mp h with h | h
    · omega
    · exact natDigits_no_nl _ h
  · exact natDigits_no_nl _

theorem finishStep {N : Nat} {acc : List (List Nat)} (v : List Nat) (fuel : Nat)
    (tail : List Nat) (hlt : acc.length < N) :
    (if (readState.finished ⟨true, N, 42, acc ++ [v], 0⟩) = true then
      pcons ⟨finishedReply ⟨true, N, 42, acc ++ [v], 0⟩, none⟩ (parse0 fuel tail zeroRS)
    else parse0 fuel tail ⟨true, N, 42, acc ++ [v], 0⟩) = afterElem N acc v fuel tail := by
  have h0 : 0 < N := by omega
  by_cases hN : acc.length + 1 = N
  · have hfin : (readState.finished ⟨true, N, 42, acc ++ [v], 0⟩) = true := by
      simp [readState.finished, h0, hN]
    rw [if_pos hfin]
    unfold afterElem
    rw [if_pos hN]
    rfl
  · have hfin : ¬(readState.finished ⟨true, N, 42, acc ++ [v], 0⟩) = true := by
      simp [readState.finished, h0]
      omega
    rw [if_neg hfin]
    unfold afterElem
    rw [if_neg hN]

/-- One `rawE` element: a single loop iteration that appends the bare line. -/
theorem rawStep {line : List Nat} {N : Nat} {acc : List (List Nat)} {fuel : Nat}
    {tail : List Nat} (hne : line ≠ []) (h36 : line.head? ≠ some 36) (hnl : 10 ∉ line)
    (hlt : acc.length < N) :
    parse0 (fuel + 1) ((Elem.rawE line).enc ++ tail) ⟨true, N, 42, acc, 0⟩ =
      afterElem N acc line fuel tail := by
  show parse0 (fuel + 1) ((line ++ crlf) ++ tail) ⟨true, N, 42, acc, 0⟩ = _
  have hrl := readLine_normal line tail ⟨true, N, 42, acc, 0⟩ rfl hnl
  have hrb := readBody_raw line ⟨true, N, 42, acc, 0⟩ hne h36
  simp only [parse0, hrl, hrb]
  exact finishStep line fuel tail hlt

/-- One `nullE` element: a single loop iteration that appends an empty buffer. -/
theorem nullStep {n : Int} {N : Nat} {acc : List (List Nat)} {fuel : Nat}
    {tail : List Nat} (hn : n ≤ 0) (hlo : -(2 ^ 63) ≤ n) (hlt : acc.length < N) :
    parse0 (fuel + 1) ((Elem.nullE n).enc ++ tail) ⟨true, N, 42, acc, 0⟩ =
      afterElem N acc [] fuel tail := by
  show parse0 (fuel + 1) (((36 :: intB n) ++ crlf) ++ tail) ⟨true, N, 42, acc, 0⟩ = _
  have hnl : 10 ∉ (36 :: intB n) := by
    intro h
    rcases List.mem_cons.mp h with h | h
    · omega
    · exact intB_no_nl n h
  have hrl := readLine_normal (36 :: intB n) tail ⟨true, N, 42, acc, 0⟩ rfl hnl
  have hp : parseInt64 (intB n) = some n := parseInt64_intB hlo (by omega)
  have hrb := readBody_header (intB n) ⟨true, N, 42, acc, 0⟩ hp
  rw [if_pos hn] at hrb
  simp only [parse0, hrl, hrb]
  exact finishStep [] fuel tail hlt

/-- One `bulkE` element: two loop iterations — the `$<len>` header line sets
`bulkLen`, then the fixed-size body read appends the body verbatim. -/
theorem bulkStep {body : List Nat} {N : Nat} {acc : List (List Nat)} {fuel : Nat}
    {tail : List Nat} (hne : body ≠ []) (h36 : body.head? ≠ some 36)
    (hsz : body.length < 2 ^ 63) (hlt : acc.length < N) :
    parse0 (fuel + 2) ((Elem.bulkE body).enc ++ tail) ⟨true, N, 42, acc, 0⟩ =
      afterElem N acc body fuel tail := by
  have hpos : 0 < body.length := List.length_pos.mpr hne
  rw [show (Elem.bulkE body).enc ++ tail
      = ((36 :: natDigits body.length) ++ crlf) ++ ((body ++ crlf) ++ tail) from by
    simp [Elem.enc]]
  have hnl : 10 ∉ (36 :: natDigits body.length) := by
    intro h
    rcases List.mem_cons.mp h with h | h
    · omega
    · exact natDigits_no_nl _ h
  have hrl := readLine_normal (36 :: natDigits body.length)
    ((body ++ crlf) ++ tail) ⟨true, N, 42, acc, 0⟩ rfl hnl
  have hp : parseInt64 (natDigits body.length) = some (body.length : Int) :=
    parseInt64_natDigits hsz
  have hrb := readBody_header (natDigits body.length) ⟨true, N, 42, acc, 0⟩ hp
  rw [if_neg (by omega)] at hrb
  have hfin1 : ¬(readState.finished ⟨true, N, 42, acc, (body.length : Int)⟩) = true := by
    simp [readState.finished]
    omega
  show parse0 (fuel + 1 + 1) _ _ = _
  simp only [parse0, hrl, hrb, hfin1, if_false]
  -- second iteration: the fixed-size body read
  have hrl2 := readLine_bulk body tail ⟨true, N, 42, acc, (body.length : Int)⟩ rfl hpos
  have hrb2 := readBody_raw body ⟨true, N, 42, acc, 0⟩ hne h36
  simp only [parse0, hrl2, hrb2]
  exact finishStep body fuel tail hlt

/-- Processing one well-formed element while collecting a Multi-Bulk. -/
theorem elemStep {e : Elem} {N : Nat} {acc : List (List Nat)} {fuel : Nat}
    {tail : List Nat} (hwf : e.wf) (hlt : acc.length < N) :
    parse0 (fuel + e.iters) (e.enc ++ tail) ⟨true, N, 42, acc, 0⟩ =
      afterElem N acc e.val fuel tail := by
  cases e with
  | bulkE body =>
      obtain ⟨h1, h2, h3⟩ := hwf
      exact bulkStep h1 h2 h3 hlt
  | nullE n =>
      obtain ⟨h1, h2⟩ := hwf
      exact nullStep h1 h2 hlt
  | rawE l =>
      obtain ⟨h1, h2, h3⟩ := hwf
      exact rawStep h1 h2 h3 hlt

/-- Collecting the remaining elements of a Multi-Bulk: the parser records
one argument per element and emits a single Multi-Bulk reply built from all
collected arguments once the expected count is reached, then resets. -/
theorem collectElems {elems : List Elem} {N : Nat} {tail : List Nat} {fuel : Nat} :
    ∀ (acc : List (List Nat)),
    (∀ e ∈ elems, e.wf) → elems ≠ [] → N = acc.length + elems.length →
    parse0 (fuel + itersElems elems) (encElems elems ++ tail) ⟨true, N, 42, acc, 0⟩ =
      pcons ⟨some (.multiBulk (acc ++ elems.map Elem.val)), none⟩ (parse0 fuel tail zeroRS) := by
  induction elems with
  | nil =>
      intro acc _ hne _
      exact absurd rfl hne
  | cons e rest ih =>
      intro acc hwf _ hN
      simp only [List.length_cons] at hN
      have hwfe : e.wf := hwf e (List.mem_cons_self _ _)
      have hwfr : ∀ x ∈ rest, x.wf := fun x hx => hwf x (List.mem_cons_of_mem _ hx)
      have henc : encElems (e :: rest) ++ tail = e.enc ++ (encElems rest ++ tail) := by
        simp [encElems]
      have hiter : fuel + itersElems (e :: rest) = (fuel + itersElems rest) + e.iters := by
        simp [itersElems]
        omega
      rw [henc, hiter, elemStep hwfe (show acc.length < N by omega)]
      cases rest with
      | nil =>
          have hN1 : acc.length + 1 = N := by
            simp only [List.length_nil] at hN
            omega
          unfold afterElem
          rw [if_pos hN1]
          simp [encElems, itersElems]
      | cons r tl =>
          simp only [List.length_cons] at hN
          have hN1 : ¬acc.length + 1 = N := by omega
          unfold afterElem
          rw [if_neg hN1]
          have hrec := ih (acc ++ [e.val]) hwfr (by simp)
            (by simp only [List.length_append, List.length_cons, List.length_nil]; omega)
          rw [hrec]
          simp

/-- A read at end of stream: `ReadBytes` fails with EOF, the parser sends a
final payload carrying the error and closes the channel. -/
theorem parse0_nil (fuel : Nat) :
    parse0 (fuel + 1) [] zeroRS = ⟨[⟨none, some (.io .eof)⟩], .closed⟩ := rfl

/-- Consuming a `*<N>` Multi-Bulk header line with `1 ≤ N < 2^32` moves the
parser into collecting mode with `N` expected arguments. -/
theorem mbHeaderStep {N : Nat} {tail : List Nat} {fuel : Nat}
    (h1 : 1 ≤ N) (h32 : N < 2 ^ 32) :
    parse0 (fuel + 1) (((42 :: natDigits N) ++ crlf) ++ tail) zeroRS =
      parse0 fuel tail ⟨true, N, 42, [], 0⟩ := by
  have hnl : 10 ∉ (42 :: natDigits N) := by
    intro h
    rcases List.mem_cons.mp h with h | h
    · omega
    · exact natDigits_no_nl _ h
  have hrl := readLine_normal (42 :: natDigits N) tail zeroRS rfl hnl
  have hN0 : ¬N = 0 := by omega
  have hpm : parseMultiBulkHeader ((42 :: natDigits N) ++ crlf) zeroRS
      = some ⟨true, N, 42, [], 0⟩ := by
    unfold parseMultiBulkHeader
    rw [show lineContent ((42 :: natDigits N) ++ crlf) = natDigits N from
        lineContent_eq 42 (natDigits N),
      parseUint32_natDigits h32]
    simp [hN0, zeroRS]
  have hml : zeroRS.readingMultiLine = false := rfl
  have hhd : ((42 :: natDigits N) ++ crlf).headD 0 = 42 := rfl
  simp only [parse0, hrl, hml, hhd, hpm, if_true, eq_self_iff_true]
  rw [if_neg (show ¬(readState.mk true N 42 [] 0).expectedArgsCount = 0 from hN0)]

/-- Modelled from the spec: the canonical wire encodings of the reply
variants (section 6 wire-format table; the `resp/reply` package holding the
`ToBytes` methods is not among the provided sources). -/
def encodeReply : Reply → List Nat
  | .status s => 43 :: (s ++ crlf)
  | .errRep s => 45 :: (s ++ crlf)
  | .intRep n => 58 :: (intB n ++ crlf)
  | .bulk b => (36 :: natDigits b.length) ++ crlf ++ b ++ crlf
  | .nullBulk => strB "$-1\r\n"
  | .multiBulk args =>
      (42 :: natDigits args.length) ++ crlf ++
        (args.map fun b => (36 :: natDigits b.length) ++ crlf ++ b ++ crlf).flatten
  | .emptyMultiBulk => strB "*0\r\n"

theorem encodeReply_multiBulk (args : List (List Nat)) :
    encodeReply (.multiBulk args) =
      ((42 :: natDigits args.length) ++ crlf) ++ encElems (args.map Elem.bulkE) := by
  show ((42 :: natDigits args.length) ++ crlf) ++
      (args.map fun b => (36 :: natDigits b.length) ++ crlf ++ b ++ crlf).flatten = _
  unfold encElems
  congr 1
  rw [List.map_map]
  apply congrArg
  apply List.map_congr_left
  intro b _
  simp [Elem.enc, Function.comp]

/-- Parsing one complete well-formed Multi-Bulk message followed by end of
stream: exactly one Multi-Bulk data unit is produced (with one recorded
argument per element), then the EOF transport error unit, then the channel
closes. -/
theorem parseWholeMB (elems : List Elem) (h0 : elems ≠ [])
    (hwf : ∀ e ∈ elems, e.wf) (hcnt : elems.length < 2 ^ 32) :
    parse0 (1 + itersElems elems + 1)
      (((42 :: natDigits elems.length) ++ crlf) ++ encElems elems) zeroRS =
      ⟨[⟨some (.multiBulk (elems.map Elem.val)), none⟩, ⟨none, some (.io .eof)⟩], .closed⟩ := by
  have h1 : 1 ≤ elems.length := List.length_pos.mpr h0
  rw [mbHeaderStep h1 hcnt]
  rw [show encElems elems = encElems elems ++ [] from (List.append_nil _).symm]
  rw [collectElems [] hwf h0 (by simp)]
  rw [show parse0 1 ([] : List Nat) zeroRS = ⟨[⟨none, some (.io .eof)⟩], .closed⟩ from rfl]
  simp [pcons]

/-! ## Generic step lemmas for the parse0 loop -/

/-- An I/O error from `readLine`: one final error payload, channel closed. -/
theorem parse0_ioErr {input : List Nat} {s : readState} {k : IoKind} {fuel : Nat}
    (h : readLine input s = .ioErr k) :
    parse0 (fuel + 1) input s = ⟨[⟨none, some (.io k)⟩], .closed⟩ := by
  simp only [parse0, h]

/-- A protocol error from `readLine`: one error payload, state reset, loop
continues on the remaining stream. -/
theorem parse0_protoErr {input msg rest : List Nat} {s : readState} {fuel : Nat}
    (h : readLine input s = .protoErr msg rest) :
    parse0 (fuel + 1) input s = pcons ⟨none, some (.proto msg)⟩ (parse0 fuel rest zeroRS) := by
  simp only [parse0, h]

/-- A failed `parseMultiBulkHeader`: one protocol-error payload, state
reset, loop continues. -/
theorem parse0_mbHdrErr {input msg rest : List Nat} {s s1 : readState} {fuel : Nat}
    (hrl : readLine input s = .ok msg rest s1) (hml : s1.readingMultiLine = false)
    (hhd : msg.headD 0 = 42) (hpm : parseMultiBulkHeader msg s1 = none) :
    parse0 (fuel + 1) input s = pcons ⟨none, some (.proto msg)⟩ (parse0 fuel rest zeroRS) := by
  simp only [parse0, hrl]
  rw [if_pos hml, if_pos hhd]
  simp only [hpm]

/-- A failed `parseBulkHeader`: one protocol-error payload, state reset,
loop continues. -/
theorem parse0_bulkHdrErr {input msg rest : List Nat} {s s1 : readState} {fuel : Nat}
    (hrl : readLine input s = .ok msg rest s1) (hml : s1.readingMultiLine = false)
    (hhd : msg.headD 0 = 36) (hpb : parseBulkHeader msg s1 = none) :
    parse0 (fuel + 1) input s = pcons ⟨none, some (.proto msg)⟩ (parse0 fuel rest zeroRS) := by
  have h42 : ¬msg.headD 0 = 42 := by rw [hhd]; omega
  simp only [parse0, hrl]
  rw [if_pos hml, if_neg h42, if_pos hhd]
  simp only [hpb]

/-- A successful `parseBulkHeader` outside any multi-bulk: `-1` yields the
Null-Bulk unit immediately, otherwise the loop continues in body mode. -/
theorem parse0_bulkHdrOk {input msg rest : List Nat} {s s1 s2 : readState} {fuel : Nat}
    (hrl : readLine input s = .ok msg rest s1) (hml : s1.readingMultiLine = false)
    (hhd : msg.headD 0 = 36) (hpb : parseBulkHeader msg s1 = some s2) :
    parse0 (fuel + 1) input s =
      if s2.bulkLen = -1 then pcons ⟨some .nullBulk, none⟩ (parse0 fuel rest zeroRS)
      else parse0 fuel rest s2 := by
  have h42 : ¬msg.headD 0 = 42 := by rw [hhd]; omega
  simp only [parse0, hrl]
  rw [if_pos hml, if_neg h42, if_pos hhd]
  simp only [hpb]

/-- A protocol error from `readBody` while collecting: one protocol-error
payload, state reset, loop continues. -/
theorem parse0_bodyErr {input msg rest : List Nat} {s s1 : readState} {fuel : Nat}
    (hrl : readLine input s = .ok msg rest s1) (hml : s1.readingMultiLine = true)
    (hrb : readBody msg s1 = .protoErr) :
    parse0 (fuel + 1) input s = pcons ⟨none, some (.proto msg)⟩ (parse0 fuel rest zeroRS) := by
  simp only [parse0, hrl]
  rw [if_neg (by simp [hml])]
  simp only [hrb]

/-! ## Claim C1 -/

/-- C1 (amended): for every Multi-Bulk wire encoding (`*<count>\r\n`
followed by `count` Bulk elements `$<len>\r\n<len bytes>\r\n`) with at
least one element, in which every argument is non-empty and does not begin
with the byte `'$'`, feeding those bytes to the parser yields exactly one
Multi-Bulk unit whose ordered argument buffers are exactly the encoded
arguments — so their canonical re-encoding reproduces the original input —
followed only by the end-of-stream transport unit. -/
theorem c1_roundtrip_nonempty_args (args : List (List Nat)) (h0 : args ≠ [])
    (hwf : ∀ a ∈ args, a ≠ [] ∧ a.head? ≠ some 36 ∧ a.length < 2 ^ 63)
    (hcnt : args.length < 2 ^ 32) :
    parse0 (1 + itersElems (args.map Elem.bulkE) + 1)
      (encodeReply (.multiBulk args)) zeroRS =
      ⟨[⟨some (.multiBulk args), none⟩, ⟨none, some (.io .eof)⟩], .closed⟩ := by
  rw [encodeReply_multiBulk]
  have hwf' : ∀ e ∈ args.map Elem.bulkE, e.wf := by
    intro e he
    obtain ⟨a, ha, rfl⟩ := List.mem_map.mp he
    exact hwf a ha
  have h0' : args.map Elem.bulkE ≠ [] := by
    intro h
    exact h0 (by simpa using h)
  have hlenmap : (args.map Elem.bulkE).length = args.length := List.length_map args _
  rw [show natDigits args.length = natDigits (args.map Elem.bulkE).length from by
    rw [hlenmap]]
  rw [parseWholeMB _ h0' hwf' (by rw [hlenmap]; exact hcnt)]
  have hv : (args.map Elem.bulkE).map Elem.val = args := by
    rw [List.map_map]
    have hid : Elem.val ∘ Elem.bulkE = id := by
      funext b
      rfl
    rw [hid, List.map_id]
  rw [hv]

/-- C1 counterexample: valid Multi-Bulk encodings (per the claim's grammar)
that the parser fails to round-trip.  `*1\r\n$2\r\n$5\r\n` encodes the
single argument `"$5"`, but `readBody` re-interprets the body block `$5` as
a nested length header, so the run produces no Multi-Bulk unit at all, only
the EOF unit.  `*2\r\n$0\r\n\r\n$1\r\na\r\n` encodes `["", "a"]`, but after
the `$0` header the empty body line makes `readBody` evaluate `line[0]` on
an empty slice — a panic, producing no unit.  `*0\r\n` (count 0, allowed by
the claim's grammar) yields an Empty-Multi-Bulk unit, which is a different
variant from a Multi-Bulk unit. -/
theorem c1_counterexample :
    parse0 4 (strB "*1\r\n$2\r\n$5\r\n") zeroRS = ⟨[⟨none, some (.io .eof)⟩], .closed⟩
    ∧ parse0 3 (strB "*2\r\n$0\r\n\r\n$1\r\na\r\n") zeroRS = ⟨[], .fault⟩
    ∧ parse0 2 (strB "*0\r\n") zeroRS =
        ⟨[⟨some .emptyMultiBulk, none⟩, ⟨none, some (.io .eof)⟩], .closed⟩
    ∧ Reply.emptyMultiBulk ≠ Reply.multiBulk [] := by
  exact ⟨by decide, by decide, by decide, by decide⟩

/-- C1 witness: the amended round-trip at the concrete encoding
`*1\r\n$4\r\nPING\r\n`. -/
theorem c1_witness :
    parse0 4 (strB "*1\r\n$4\r\nPING\r\n") zeroRS =
      ⟨[⟨some (.multiBulk [strB "PING"]), none⟩, ⟨none, some (.io .eof)⟩], .closed⟩ := by
  have h := c1_roundtrip_nonempty_args [strB "PING"] (by decide) (by decide) (by decide)
  rw [show strB "*1\r\n$4\r\nPING\r\n" = encodeReply (.multiBulk [strB "PING"]) from by
    decide]
  exact h

/-! ## Claim C3 -/

/-- C3 (confirmed): an element header with non-positive length (`$-1`,
`$0`, or any `$<len>` with `len ≤ 0`) occurring anywhere inside a
Multi-Bulk being collected is recorded as an empty byte buffer, is never a
parse error, and the remaining elements of the message are parsed
correctly: the whole message still yields exactly one Multi-Bulk unit with
an empty buffer in that element's position. -/
theorem c3_nonpositive_header_empty_buffer (pre post : List Elem) (n : Int)
    (hn : n ≤ 0) (hlo : -(2 ^ 63) ≤ n)
    (hwfp : ∀ e ∈ pre, e.wf) (hwfq : ∀ e ∈ post, e.wf)
    (hcnt : (pre ++ Elem.nullE n :: post).length < 2 ^ 32) :
    parse0 (1 + itersElems (pre ++ Elem.nullE n :: post) + 1)
      (((42 :: natDigits (pre ++ Elem.nullE n :: post).length) ++ crlf) ++
        encElems (pre ++ Elem.nullE n :: post)) zeroRS =
      ⟨[⟨some (.multiBulk (pre.map Elem.val ++ [] :: post.map Elem.val)), none⟩,
        ⟨none, some (.io .eof)⟩], .closed⟩ := by
  have hwf : ∀ e ∈ pre ++ Elem.nullE n :: post, e.wf := by
    intro e he
    rcases List.mem_append.mp he with h | h
    · exact hwfp e h
    · rcases List.mem_cons.mp h with h | h
      · subst h
        exact ⟨hn, hlo⟩
      · exact hwfq e h
  rw [parseWholeMB _ (by simp) hwf hcnt]
  simp [Elem.val]

/-- C3 witness: `*2\r\n$0\r\n$1\r\na\r\n` — a `$0` element followed by a
normal bulk element — decodes to the Multi-Bulk `["" , "a"]`. -/
theorem c3_witness :
    parse0 5 (strB "*2\r\n$0\r\n$1\r\na\r\n") zeroRS =
      ⟨[⟨some (.multiBulk [[], strB "a"]), none⟩, ⟨none, some (.io .eof)⟩], .closed⟩ := by
  have h := c3_nonpositive_header_empty_buffer [] [Elem.bulkE (strB "a")] 0
    (by decide) (by decide) (by decide) (by decide) (by decide)
  rw [show strB "*2\r\n$0\r\n$1\r\na\r\n" =
      ((42 :: natDigits (([] ++ Elem.nullE 0 :: [Elem.bulkE (strB "a")]).length)) ++ crlf) ++
        encElems ([] ++ Elem.nullE 0 :: [Elem.bulkE (strB "a")]) from by decide]
  exact h

/-! ## Claim C10 -/

/-- C10 (confirmed): while collecting the elements of a Multi-Bulk (with
`bulkLen = 0`, i.e. no body pending), any well-formed CRLF-terminated line
whose first byte is not `'$'` is silently accepted as the next argument —
the line content minus its trailing CRLF — rather than rejected as a
protocol error; the message completes normally when it was the last
expected argument. -/
theorem c10_bare_line_accepted (l : List Nat) (acc : List (List Nat)) (N fuel : Nat)
    (rest : List Nat) (hne : l ≠ []) (h36 : l.head? ≠ some 36) (hnl : 10 ∉ l)
    (hlt : acc.length < N) :
    parse0 (fuel + 1) ((l ++ crlf) ++ rest) ⟨true, N, 42, acc, 0⟩ =
      if acc.length + 1 = N then
        pcons ⟨some (.multiBulk (acc ++ [l])), none⟩ (parse0 fuel rest zeroRS)
      else parse0 fuel rest ⟨true, N, 42, acc ++ [l], 0⟩ := by
  have h : parse0 (fuel + 1) ((Elem.rawE l).enc ++ rest) ⟨true, N, 42, acc, 0⟩ =
      afterElem N acc (Elem.rawE l).val fuel rest := rawStep hne h36 hnl hlt
  rw [show (Elem.rawE l).enc ++ rest = (l ++ crlf) ++ rest from rfl] at h
  rw [h]
  unfold afterElem
  rfl

/-- C10 witness: the input `*1\r\nPING\r\n` decodes to a one-argument
Multi-Bulk with argument `PING` even though the element lacks a `$` length
header. -/
theorem c10_witness :
    parse0 3 (strB "*1\r\nPING\r\n") zeroRS =
      ⟨[⟨some (.multiBulk [strB "PING"]), none⟩, ⟨none, some (.io .eof)⟩], .closed⟩ := by
  have hhd : parse0 3 (strB "*1\r\nPING\r\n") zeroRS =
      parse0 2 ((strB "PING" ++ crlf) ++ []) ⟨true, 1, 42, [], 0⟩ := by
    have h : parse0 (2 + 1) (((42 :: natDigits 1) ++ crlf) ++ ((strB "PING" ++ crlf) ++ []))
        zeroRS = parse0 2 ((strB "PING" ++ crlf) ++ []) ⟨true, 1, 42, [], 0⟩ :=
      mbHeaderStep (by decide) (by decide)
    rw [show strB "*1\r\nPING\r\n" = ((42 :: natDigits 1) ++ crlf) ++ ((strB "PING" ++ crlf) ++ [])
      from by decide]
    exact h
  rw [hhd]
  have h := c10_bare_line_accepted (strB "PING") [] 1 1 [] (by decide) (by decide)
    (by decide) (by decide)
  rw [h]
  decide

/-! ## Claim C2 -/

/-- C2 (amended): for a Bulk-string header `$<len>` arriving outside any
multi-bulk: `len == -1` emits a Null-Bulk unit with no body read; `len <
-1` emits a protocol-error unit; `len == 0` also emits a protocol-error
unit (not an empty Bulk); and for every `len ≥ 1` whose body does not begin
with `'$'`, the parser reads exactly `len` body bytes plus the mandatory
trailing CRLF as a fixed-size block and emits a Bulk unit containing those
bytes verbatim, including embedded CR, LF or NUL bytes. -/
theorem c2_bulk_header_top_level : ∀ (rest : List Nat) (fuel : Nat),
    (parse0 (fuel + 1) (strB "$-1\r\n" ++ rest) zeroRS =
      pcons ⟨some .nullBulk, none⟩ (parse0 fuel rest zeroRS))
    ∧ (∀ n : Int, n < -1 → -(2 ^ 63) ≤ n →
      parse0 (fuel + 1) (((36 :: intB n) ++ crlf) ++ rest) zeroRS =
        pcons ⟨none, some (.proto ((36 :: intB n) ++ crlf))⟩ (parse0 fuel rest zeroRS))
    ∧ (parse0 (fuel + 1) (strB "$0\r\n" ++ rest) zeroRS =
      pcons ⟨none, some (.proto (strB "$0\r\n"))⟩ (parse0 fuel rest zeroRS))
    ∧ (∀ body : List Nat, body ≠ [] → body.head? ≠ some 36 → body.length < 2 ^ 63 →
      parse0 (fuel + 2)
        (((36 :: natDigits body.length) ++ crlf) ++ ((body ++ crlf) ++ rest)) zeroRS =
        pcons ⟨some (.bulk body), none⟩ (parse0 fuel rest zeroRS)) := by
  intro rest fuel
  refine ⟨?_, ?_, ?_, ?_⟩
  · -- len == -1: Null-Bulk, no body read
    rw [show strB "$-1\r\n" ++ rest = ((36 :: intB (-1)) ++ crlf) ++ rest from rfl]
    have hrl := readLine_normal (36 :: intB (-1)) rest zeroRS rfl (by decide)
    have hpb : parseBulkHeader ((36 :: intB (-1)) ++ crlf) zeroRS =
        some { zeroRS with bulkLen := -1 } := by
      unfold parseBulkHeader
      rw [show lineContent ((36 :: intB (-1)) ++ crlf) = intB (-1) from lineContent_eq 36 _,
        show parseInt64 (intB (-1)) = some (-1) from by decide]
      simp
    rw [parse0_bulkHdrOk hrl rfl rfl hpb]
    rfl
  · -- len < -1: protocol error
    intro n hn hlo
    have hnl : 10 ∉ (36 :: intB n) := by
      intro h
      rcases List.mem_cons.mp h with h | h
      · omega
      · exact intB_no_nl n h
    have hrl := readLine_normal (36 :: intB n) rest zeroRS rfl hnl
    have hpow : (0 : Int) < 2 ^ 63 := by norm_num
    have hpb : parseBulkHeader ((36 :: intB n) ++ crlf) zeroRS = none := by
      unfold parseBulkHeader
      rw [show lineContent ((36 :: intB n) ++ crlf) = intB n from lineContent_eq 36 _,
        parseInt64_intB hlo (by omega)]
      have h1 : ¬n = -1 := by omega
      have h2 : ¬0 < n := by omega
      simp [h1, h2]
    exact parse0_bulkHdrErr hrl rfl rfl hpb
  · -- len == 0: protocol error, not an empty Bulk unit
    rw [show strB "$0\r\n" ++ rest = ((36 :: intB 0) ++ crlf) ++ rest from rfl]
    have hrl := readLine_normal (36 :: intB 0) rest zeroRS rfl (by decide)
    have hpb : parseBulkHeader ((36 :: intB 0) ++ crlf) zeroRS = none := by
      unfold parseBulkHeader
      rw [show lineContent ((36 :: intB 0) ++ crlf) = intB 0 from lineContent_eq 36 _,
        show parseInt64 (intB 0) = some 0 from by decide]
      simp
    exact parse0_bulkHdrErr hrl rfl rfl hpb
  · -- len ≥ 1: exactly len body bytes plus CRLF, emitted verbatim
    intro body hne h36 hsz
    have hpos : 0 < body.length := List.length_pos.mpr hne
    have hnl : 10 ∉ (36 :: natDigits body.length) := by
      intro h
      rcases List.mem_cons.mp h with h | h
      · omega
      · exact natDigits_no_nl _ h
    have hrl := readLine_normal (36 :: natDigits body.length)
      ((body ++ crlf) ++ rest) zeroRS rfl hnl
    have hpb : parseBulkHeader ((36 :: natDigits body.length) ++ crlf) zeroRS =
        some ⟨true, 1, 36, [], (body.length : Int)⟩ := by
      unfold parseBulkHeader
      rw [show lineContent ((36 :: natDigits body.length) ++ crlf) = natDigits body.length
          from lineContent_eq 36 _,
        parseInt64_natDigits hsz]
      have h1 : ¬(body.length : Int) = -1 := by omega
      have h2 : (0 : Int) < (body.length : Int) := by omega
      simp [h1, h2, zeroRS]
    rw [show fuel + 2 = (fuel + 1) + 1 from rfl, parse0_bulkHdrOk hrl rfl rfl hpb,
      if_neg (show ¬(readState.mk true 1 36 [] (body.length : Int)).bulkLen = -1 by
        show ¬((body.length : Int) = -1)
        omega)]
    have hrl2 := readLine_bulk body rest ⟨true, 1, 36, [], (body.length : Int)⟩ rfl hpos
    have hrb2 := readBody_raw body ⟨true, 1, 36, [], 0⟩ hne h36
    simp only [parse0, hrl2, hrb2]
    rw [if_neg (by simp)]
    rw [if_pos (show (readState.finished ⟨true, 1, 36, [] ++ [body], 0⟩) = true from rfl)]
    rw [show finishedReply ⟨true, 1, 36, [] ++ [body], 0⟩ = some (.bulk body) from rfl]

/-- C2 counterexample: `$0\r\n\r\n` is a `len = 0` Bulk encoding (the claim
asserts every `len ≥ 0` yields a Bulk unit), but the parser emits a
protocol error for the header and then misreads the leftover body line;
and for `$2\r\n$5\r\n` (body `"$5"`, i.e. `len = 2`) no Bulk unit is
produced at all because the body block is re-parsed as a length header. -/
theorem c2_counterexample :
    parse0 3 (strB "$0\r\n\r\n") zeroRS =
      ⟨[⟨none, some (.proto (strB "$0\r\n"))⟩, ⟨none, none⟩,
        ⟨none, some (.io .eof)⟩], .closed⟩
    ∧ parse0 3 (strB "$2\r\n$5\r\n") zeroRS = ⟨[⟨none, some (.io .eof)⟩], .closed⟩ := by
  exact ⟨by decide, by decide⟩

/-- C2 witness: the four amended behaviours at concrete inputs, including a
body with an embedded CR byte read back verbatim. -/
theorem c2_witness :
    (parse0 2 (strB "$-1\r\n" ++ []) zeroRS =
      pcons ⟨some .nullBulk, none⟩ (parse0 1 [] zeroRS))
    ∧ (parse0 2 (((36 :: intB (-5)) ++ crlf) ++ []) zeroRS =
      pcons ⟨none, some (.proto ((36 :: intB (-5)) ++ crlf))⟩ (parse0 1 [] zeroRS))
    ∧ (parse0 2 (strB "$0\r\n" ++ []) zeroRS =
      pcons ⟨none, some (.proto (strB "$0\r\n"))⟩ (parse0 1 [] zeroRS))
    ∧ (parse0 3 (((36 :: natDigits (strB "a\rb").length) ++ crlf) ++
        (((strB "a\rb") ++ crlf) ++ [])) zeroRS =
      pcons ⟨some (.bulk (strB "a\rb")), none⟩ (parse0 1 [] zeroRS)) := by
  have h := c2_bulk_header_top_level [] 1
  exact ⟨h.1, h.2.1 (-5) (by decide) (by decide), h.2.2.1,
    h.2.2.2 (strB "a\rb") (by decide) (by decide) (by decide)⟩

/-! ## Claim C4 -/

/-- C4 (amended): every line of at least two bytes read in normal-line mode
that does not end in CRLF (its byte before the final `\n` is not `\r`)
makes the parser emit one format-error (protocol error) unit, reset its
state to the zero value, and resume scanning from the next line.  (A bare
one-byte `\n` line instead faults — see the counterexample.) -/
theorem c4_bad_terminator (l rest : List Nat) (s : readState) (fuel : Nat)
    (hb : s.bulkLen = 0) (hne : l ≠ []) (hnl : 10 ∉ l)
    (hcr : l.getD (l.length - 1) 0 ≠ 13) :
    parse0 (fuel + 1) ((l ++ [10]) ++ rest) s =
      pcons ⟨none, some (.proto (l ++ [10]))⟩ (parse0 fuel rest zeroRS) := by
  have hlpos : 0 < l.length := List.length_pos.mpr hne
  have hrl : readLine ((l ++ [10]) ++ rest) s = .protoErr (l ++ [10]) rest := by
    have hsplit : splitAtNL ((l ++ [10]) ++ rest) = some (l ++ [10], rest) := by
      rw [List.append_assoc, show ([10] : List Nat) ++ rest = 10 :: rest from rfl]
      exact splitAtNL_append rest hnl
    rw [readLine, if_pos hb]
    simp only [hsplit]
    unfold lineCheck
    have hlen : (l ++ [10]).length = l.length + 1 := by simp
    have hidx : (l ++ [10]).length - 2 = l.length - 1 := by omega
    have hget : (l ++ [10]).getD ((l ++ [10]).length - 2) 0 = l.getD (l.length - 1) 0 := by
      rw [hidx]
      exact List.getD_append l [10] 0 (l.length - 1) (by omega)
    have h0 : ¬(l ++ [10]).length = 0 := by rw [hlen]; omega
    have h1 : ¬(l ++ [10]).length = 1 := by rw [hlen]; omega
    have h2 : (l ++ [10]).getD ((l ++ [10]).length - 2) 0 ≠ 13 := by rw [hget]; exact hcr
    rw [if_neg h0, if_neg h1, if_pos h2]
  exact parse0_protoErr hrl

/-- C4 counterexample: the claim asserts that every line not ending in CRLF
— "including a bare `\n` line and an empty line inside a multi-bulk" — is
answered with a format-error unit, with the line/body readers total.  But a
bare `\n` makes `readLine` index `msg[len(msg)-2] = msg[-1]` (an index
out-of-range panic caught only by the task-boundary recover), and an empty
`\r\n` line inside a multi-bulk makes `readBody` index `line[0]` on an
empty slice: in both runs the parser task dies without emitting any unit
and without resuming. -/
theorem c4_counterexample :
    parse0 1 [10] zeroRS = ⟨[], .fault⟩
    ∧ parse0 2 (strB "*1\r\n\r\n") zeroRS = ⟨[], .fault⟩ := by
  exact ⟨by decide, by decide⟩

/-- C4 witness: the three-byte line `abc` followed by a bare `\n` yields
one protocol-error unit and parsing resumes. -/
theorem c4_witness :
    parse0 2 ((strB "abc" ++ [10]) ++ []) zeroRS =
      pcons ⟨none, some (.proto (strB "abc" ++ [10]))⟩ (parse0 1 [] zeroRS) := by
  exact c4_bad_terminator (strB "abc") [] zeroRS 1 rfl (by decide) (by decide) (by decide)

/-! ## Claim C5 -/

/-- C5 (confirmed): for every input stream and parser state, a transport
(I/O) failure in `readLine` produces exactly one final error unit after
which the channel is closed and nothing further is produced, while each
format failure — a bad line terminator from `readLine`, a failed
Multi-Bulk header parse, a failed Bulk header parse, or a `readBody`
error — produces exactly one protocol-error unit after which the
`readState` is reset to its zero value and the loop continues with the
remaining stream. -/
theorem c5_transport_vs_format : ∀ (fuel : Nat) (input : List Nat) (s : readState),
    (∀ k, readLine input s = .ioErr k →
      parse0 (fuel + 1) input s = ⟨[⟨none, some (.io k)⟩], .closed⟩)
    ∧ (∀ msg rest, readLine input s = .protoErr msg rest →
      parse0 (fuel + 1) input s =
        pcons ⟨none, some (.proto msg)⟩ (parse0 fuel rest zeroRS))
    ∧ (∀ msg rest s1, readLine input s = .ok msg rest s1 → s1.readingMultiLine = false →
        msg.headD 0 = 42 → parseMultiBulkHeader msg s1 = none →
      parse0 (fuel + 1) input s =
        pcons ⟨none, some (.proto msg)⟩ (parse0 fuel rest zeroRS))
    ∧ (∀ msg rest s1, readLine input s = .ok msg rest s1 → s1.readingMultiLine = false →
        msg.headD 0 = 36 → parseBulkHeader msg s1 = none →
      parse0 (fuel + 1) input s =
        pcons ⟨none, some (.proto msg)⟩ (parse0 fuel rest zeroRS))
    ∧ (∀ msg rest s1, readLine input s = .ok msg rest s1 → s1.readingMultiLine = true →
        readBody msg s1 = .protoErr →
      parse0 (fuel + 1) input s =
        pcons ⟨none, some (.proto msg)⟩ (parse0 fuel rest zeroRS)) := by
  intro fuel input s
  refine ⟨?_, ?_, ?_, ?_, ?_⟩
  · intro k h
    exact parse0_ioErr h
  · intro msg rest h
    exact parse0_protoErr h
  · intro msg rest s1 hrl hml hhd hpm
    exact parse0_mbHdrErr hrl hml hhd hpm
  · intro msg rest s1 hrl hml hhd hpb
    exact parse0_bulkHdrErr hrl hml hhd hpb
  · intro msg rest s1 hrl hml hrb
    exact parse0_bodyErr hrl hml hrb

/-- C5 witness: each of the five disciplines at a concrete input — EOF on
an empty stream; a line with a bad terminator; `*abc`, `$abc` (non-numeric
counts/lengths); and a bad `$` length while collecting a multi-bulk. -/
theorem c5_witness :
    parse0 1 [] zeroRS = ⟨[⟨none, some (.io .eof)⟩], .closed⟩
    ∧ parse0 1 (strB "x\n") zeroRS =
      pcons ⟨none, some (.proto (strB "x\n"))⟩ (parse0 0 [] zeroRS)
    ∧ parse0 1 (strB "*abc\r\n") zeroRS =
      pcons ⟨none, some (.proto (strB "*abc\r\n"))⟩ (parse0 0 [] zeroRS)
    ∧ parse0 1 (strB "$abc\r\n") zeroRS =
      pcons ⟨none, some (.proto (strB "$abc\r\n"))⟩ (parse0 0 [] zeroRS)
    ∧ parse0 1 (strB "$abc\r\n") ⟨true, 2, 42, [], 0⟩ =
      pcons ⟨none, some (.proto (strB "$abc\r\n"))⟩ (parse0 0 [] zeroRS) := by
  refine ⟨?_, ?_, ?_, ?_, ?_⟩
  · exact (c5_transport_vs_format 0 [] zeroRS).1 .eof (by decide)
  · exact (c5_transport_vs_format 0 (strB "x\n") zeroRS).2.1 (strB "x\n") [] (by decide)
  · exact (c5_transport_vs_format 0 (strB "*abc\r\n") zeroRS).2.2.1 (strB "*abc\r\n") []
      zeroRS (by decide) (by decide) (by decide) (by decide)
  · exact (c5_transport_vs_format 0 (strB "$abc\r\n") zeroRS).2.2.2.1 (strB "$abc\r\n") []
      zeroRS (by decide) (by decide) (by decide) (by decide)
  · exact (c5_transport_vs_format 0 (strB "$abc\r\n") ⟨true, 2, 42, [], 0⟩).2.2.2.2
      (strB "$abc\r\n") [] ⟨true, 2, 42, [], 0⟩ (by decide) (by decide) (by decide)

/-! ## Claim C9 -/

/-- C9 (confirmed): for every `readState`, `finished` holds iff
`expectedArgsCount > 0` and `len(args) == expectedArgsCount`; in
particular it is false whenever `expectedArgsCount == 0`. -/
theorem c9_finished_iff :
    (∀ s : readState,
      s.finished = true ↔ 0 < s.expectedArgsCount ∧ s.args.length = s.expectedArgsCount)
    ∧ ∀ s : readState, s.expectedArgsCount = 0 → s.finished = false := by
  constructor
  · intro s
    simp [readState.finished]
  · intro s h
    simp [readState.finished, h]

/-- C9 witness: the zero state (`expectedArgsCount = 0`) is not finished,
and a collecting state with both arguments present is. -/
theorem c9_witness :
    zeroRS.finished = false
    ∧ (readState.finished ⟨true, 2, 42, [[], []], 0⟩ = true) := by
  constructor
  · exact c9_finished_iff.2 zeroRS rfl
  · exact (c9_finished_iff.1 ⟨true, 2, 42, [[], []], 0⟩).mpr (by constructor <;> decide)

/-! ## Request handler (embedding of `resp/handler` RespHandler.Handle) -/

/-- The substring the handler greps error texts for. -/
def closedNetworkText : List Nat := strB "use of closed network connection"

/-- The `Error()` text of the modelled Go error values. -/
def errText : GoErr → List Nat
  | .io .eof => strB "EOF"
  | .io .unexpectedEof => strB "unexpected EOF"
  | .io .closedNetwork => strB "read tcp: use of closed network connection"
  | .io .resetByPeer => strB "read tcp: connection reset by peer"
  | .proto line => strB "protocol error: " ++ line

/-- Byte-list version of a prefix test (needle first). -/
def isPre : List Nat → List Nat → Bool
  | [], _ => true
  | _ :: _, [] => false
  | a :: as, b :: bs => a == b && isPre as bs

/-- Embedding of `strings.Contains(haystack, needle)`. -/
def containsSub : List Nat → List Nat → Bool
  | h, n =>
      match h with
      | [] => n.isEmpty
      | _ :: t => isPre n h || containsSub t n

/-- The handler's transport-error check:
`payload.Err == io.EOF || payload.Err == io.ErrUnexpectedEOF ||
strings.Contains(payload.Err.Error(), "use of closed network connection")`. -/
def matchesClose (e : GoErr) : Bool :=
  e == .io .eof || e == .io .unexpectedEof || containsSub (errText e) closedNetworkText

/-- Observable actions of `RespHandler.Handle` on one connection. -/
inductive HEv where
  | connClose                    -- `conn.Close()` on the raw socket (refuse path)
  | register                     -- `activeConn.Store(client, 1)`
  | parseStart                   -- `parser.ParseStream(conn)`
  | clientClose                  -- `client.Close()` inside `closeClient`
  | afterClose                   -- `db.AfterClientClose(client)`
  | deregister                   -- `activeConn.Delete(client)`
  | logInfo
  | logErr
  | exec (args : List (List Nat)) -- `db.Exec(client, r.Args)`
  | write (b : List Nat)          -- a `client.Write(...)` call with these bytes
  deriving Repr, DecidableEq

/-- The three cleanup actions of `closeClient`, in source order. -/
def closeClientEvs : List HEv := [.clientClose, .afterClose, .deregister]

/-- Embedding of the `for payload := range ch` loop of `RespHandler.Handle`.
`w i` is the outcome of the `i`-th `client.Write` call on this connection
(`true` when that write returns no error): the source checks the result of
the error-reply write — on failure it runs `closeClient`, logs and returns —
while the results of the two data-reply writes are discarded (`_ =
client.Write(...)`).  Matched transport errors run `closeClient`, log and
return; data units are dispatched to the database or logged and skipped. -/
def respLoop (exec : List (List Nat) → Option Reply) (w : Nat → Bool) :
    Nat → List Payload → List HEv
  | _, [] => []
  | i, p :: rest =>
      match p.err with
      | some e =>
          if matchesClose e then closeClientEvs ++ [.logInfo]
          else
            .write (encodeReply (.errRep (errText e))) ::
              (if w i then respLoop exec w (i + 1) rest
              else closeClientEvs ++ [.logInfo])
      | none =>
          match p.data with
          | none => .logErr :: respLoop exec w i rest
          | some (.multiBulk args) =>
              match exec args with
              | some r => .exec args :: .write (encodeReply r) :: respLoop exec w (i + 1) rest
              | none =>
                  .exec args :: .write (strB "-ERR unknown\r\n") ::
                    respLoop exec w (i + 1) rest
          | some _ => .logErr :: respLoop exec w i rest

/-- Embedding of `RespHandler.Handle`: the closing-flag check (which closes
the socket but does not return), then registration, parser start, and the
payload loop starting at write call 0. -/
def respHandle (closing : Bool) (exec : List (List Nat) → Option Reply)
    (w : Nat → Bool) (payloads : List Payload) : List HEv :=
  (if closing then [.connClose] else []) ++
    .register :: .parseStart :: respLoop exec w 0 payloads

/-! ## Claim C6 -/

/-- C6: evaluation of `Handle` with the closing flag already set.  The Go
code closes the raw socket but — lacking a `return` — still registers the
connection in `activeConn` and still starts a parser over it, contradicting
both the claim and the code's own comment ("If the handler is closing,
refuse new connections"). -/
theorem c6_closing_flag_still_registers :
    respHandle true (fun _ => none) (fun _ => true) [] =
      [.connClose, .register, .parseStart]
    ∧ HEv.register ∈ respHandle true (fun _ => none) (fun _ => true) []
    ∧ HEv.parseStart ∈ respHandle true (fun _ => none) (fun _ => true) [] := by
  refine ⟨rfl, ?_, ?_⟩ <;> decide

/-! ## Claim C7 -/

/-- C7 (amended): a parser unit whose error is `io.EOF`,
`io.ErrUnexpectedEOF`, or whose text contains "use of closed network
connection" makes the handler run `closeClient` (close the client
connection, notify the database, deregister) and log, then return — nothing
further happens regardless of later units.  A transport error NOT matching
that check (such as a connection reset observed by the read side) is
instead answered with an error-reply write: only if that write itself
fails does the handler perform the same cleanup and return; when the write
succeeds the loop merely continues, without any cleanup. -/
theorem c7_matched_transport_cleanup (exec : List (List Nat) → Option Reply)
    (w : Nat → Bool) (i : Nat) (e : GoErr) (d : Option Reply) (rest : List Payload) :
    (matchesClose e = true →
      respLoop exec w i (⟨d, some e⟩ :: rest) =
        [.clientClose, .afterClose, .deregister, .logInfo])
    ∧ (matchesClose e = false → w i = false →
      respLoop exec w i (⟨d, some e⟩ :: rest) =
        .write (encodeReply (.errRep (errText e))) ::
          [.clientClose, .afterClose, .deregister, .logInfo])
    ∧ (matchesClose e = false → w i = true →
      respLoop exec w i (⟨d, some e⟩ :: rest) =
        .write (encodeReply (.errRep (errText e))) :: respLoop exec w (i + 1) rest) := by
  refine ⟨?_, ?_, ?_⟩
  · intro h
    show (if matchesClose e = true then closeClientEvs ++ [HEv.logInfo]
        else HEv.write (encodeReply (.errRep (errText e))) ::
          (if w i = true then respLoop exec w (i + 1) rest
          else closeClientEvs ++ [HEv.logInfo])) = _
    rw [if_pos h]
    rfl
  · intro h hw
    have hne : ¬matchesClose e = true := by simp [h]
    have hwne : ¬w i = true := by simp [hw]
    show (if matchesClose e = true then closeClientEvs ++ [HEv.logInfo]
        else HEv.write (encodeReply (.errRep (errText e))) ::
          (if w i = true then respLoop exec w (i + 1) rest
          else closeClientEvs ++ [HEv.logInfo])) = _
    rw [if_neg hne, if_neg hwne]
    rfl
  · intro h hw
    have hne : ¬matchesClose e = true := by simp [h]
    show (if matchesClose e = true then closeClientEvs ++ [HEv.logInfo]
        else HEv.write (encodeReply (.errRep (errText e))) ::
          (if w i = true then respLoop exec w (i + 1) rest
          else closeClientEvs ++ [HEv.logInfo])) = _
    rw [if_neg hne, if_pos hw]

/-- C7 counterexample: a read error such as "connection reset by peer" is a
transport error, but it matches none of the three checks, so the handler
does not run `closeClient` for the unit itself; it writes an error reply
and only cleans up if that write fails.  In the execution where the write
succeeds (a failed read does not force the next write to fail, e.g. on a
half-closed connection the write is buffered locally), no deregister and no
close ever happen: the parser has closed the channel after the transport
error, so the loop just ends. -/
theorem c7_counterexample :
    respLoop (fun _ => none) (fun _ => true) 0 [⟨none, some (.io .resetByPeer)⟩] =
      [.write (encodeReply (.errRep (errText (.io .resetByPeer))))]
    ∧ HEv.deregister ∉
        respLoop (fun _ => none) (fun _ => true) 0 [⟨none, some (.io .resetByPeer)⟩]
    ∧ HEv.clientClose ∉
        respLoop (fun _ => none) (fun _ => true) 0 [⟨none, some (.io .resetByPeer)⟩] := by
  refine ⟨?_, ?_, ?_⟩ <;> decide

/-- C7 witness: the three amended behaviours at concrete errors — EOF
triggers the full cleanup (even with further units pending); a reset whose
error-reply write fails triggers the cleanup through the write-error
branch; a reset whose error-reply write succeeds continues with no cleanup. -/
theorem c7_witness :
    respLoop (fun _ => none) (fun _ => true) 0 (⟨none, some (.io .eof)⟩ :: [⟨none, none⟩]) =
      [.clientClose, .afterClose, .deregister, .logInfo]
    ∧ respLoop (fun _ => none) (fun _ => false) 0 [⟨none, some (.io .resetByPeer)⟩] =
      .write (encodeReply (.errRep (errText (.io .resetByPeer)))) ::
        [.clientClose, .afterClose, .deregister, .logInfo]
    ∧ respLoop (fun _ => none) (fun _ => true) 3 [⟨none, some (.io .resetByPeer)⟩] =
      .write (encodeReply (.errRep (errText (.io .resetByPeer)))) ::
        respLoop (fun _ => none) (fun _ => true) 4 [] := by
  refine ⟨?_, ?_, ?_⟩
  · exact (c7_matched_transport_cleanup (fun _ => none) (fun _ => true) 0 (.io .eof) none
      [⟨none, none⟩]).1 (by decide)
  · exact (c7_matched_transport_cleanup (fun _ => none) (fun _ => false) 0
      (.io .resetByPeer) none []).2.1 (by decide) (by decide)
  · exact (c7_matched_transport_cleanup (fun _ => none) (fun _ => true) 3
      (.io .resetByPeer) none []).2.2 (by decide) (by decide)

/-! ## TCP server (embedding of `tcp/server.go` ListenAndServe) -/

/-- Outcome of one `listener.Accept()` call: a connection, or an error
(notably after the shutdown path has closed the listener). -/
inductive AccRes where
  | conn (id : Nat)
  | errA
  deriving Repr, DecidableEq

/-- Observable actions of the serve loop. -/
inductive SEv where
  | accept (id : Nat)     -- Accept returned a connection
  | add                   -- waitDone.Add(1)
  | spawn (id : Nat)      -- go func() { defer waitDone.Done(); handler.Handle ... }
  | acceptFail            -- Accept returned an error: the loop breaks
  | wait (pending : Nat)  -- waitDone.Wait(): blocks until `pending` tasks have Done()d
  deriving Repr, DecidableEq

/-- Embedding of the `ListenAndServe` accept loop over a script of accept
outcomes, carrying the number of spawned handler tasks: each accepted
connection is counted with `Add(1)` and a handler task spawned; the loop
exits on the first accept error and then blocks in `waitDone.Wait()`, which
returns only once the in-flight counter — one `Done` per spawned task —
reaches zero. -/
def serveLoop (spawned : Nat) : List AccRes → List SEv
  | [] => []
  | .conn id :: rest => .accept id :: .add :: .spawn id :: serveLoop (spawned + 1) rest
  | .errA :: _ => [.acceptFail, .wait spawned]

/-- `ListenAndServe` starting with an empty wait group. -/
def listenAndServe (script : List AccRes) : List SEv := serveLoop 0 script

theorem serveLoop_split (post : List AccRes) :
    ∀ (pre : List AccRes) (spawned : Nat), (∀ a ∈ pre, a ≠ .errA) →
    serveLoop spawned (pre ++ .errA :: post) =
      (pre.map fun a =>
        match a with
        | .conn id => [SEv.accept id, SEv.add, SEv.spawn id]
        | .errA => []).flatten ++ [.acceptFail, .wait (spawned + pre.length)] := by
  intro pre
  induction pre with
  | nil =>
      intro spawned _
      simp [serveLoop]
  | cons a rest ih =>
      intro spawned hpre
      cases a with
      | conn id =>
          have hrest : ∀ x ∈ rest, x ≠ AccRes.errA :=
            fun x hx => hpre x (List.mem_cons_of_mem _ hx)
          simp only [List.cons_append, serveLoop, List.map_cons, List.flatten_cons,
            List.length_cons, List.append_eq]
          rw [ih (spawned + 1) hrest]
          have harith : spawned + 1 + rest.length = spawned + (rest.length + 1) := by omega
          rw [harith]
          simp
      | errA =>
          exact absurd rfl (hpre _ (List.mem_cons_self _ _))

/-! ## Claim C8 -/

/-- C8 (confirmed, within a sequential trace model of the accept loop):
once the shutdown path has closed the listener, the next `Accept` fails and
the loop breaks — no connection after that point is ever accepted — and the
function then reaches `waitDone.Wait()` as its final action, a barrier over
a counter that was incremented exactly once per spawned per-connection
handler task (and decremented by each task's deferred `Done`), so control
returns to the caller only after the in-flight counter reaches zero, i.e.
after every spawned handler task has finished. -/
theorem c8_shutdown_drain (pre post : List AccRes) (h : ∀ a ∈ pre, a ≠ .errA) :
    listenAndServe (pre ++ .errA :: post) =
      (pre.map fun a =>
        match a with
        | .conn id => [SEv.accept id, SEv.add, SEv.spawn id]
        | .errA => []).flatten ++ [.acceptFail, .wait pre.length] := by
  unfold listenAndServe
  rw [serveLoop_split post pre 0 h]
  rw [Nat.zero_add]

/-- C8 witness: two connections accepted and spawned, then the listener
closes; a third pending connection is never accepted and the trace ends at
the wait barrier over exactly the two spawned tasks. -/
theorem c8_witness :
    listenAndServe [.conn 1, .conn 2, .errA, .conn 3] =
      [.accept 1, .add, .spawn 1, .accept 2, .add, .spawn 2, .acceptFail, .wait 2] := by
  have h := c8_shutdown_drain [.conn 1, .conn 2] [.conn 3] (by decide)
  simpa using h

end RediGo
